import Mathlib

/-!
Verification of the RAG bootcamp orchestration notebooks
(`web_search/web_search_llamaindex.ipynb`, `sql_search/sql_search_langchain.ipynb`).

The notebooks are linear scripts that wire external services together.  We embed:
* the exception handling of the two "basic generation" cells
  (`try: result = llm.chat(message) ... except Exception as err: if "Error code: 503" in err.message ...`),
* the text chunker configured as `RecursiveCharacterTextSplitter(chunk_size=512, chunk_overlap=32)`
  (character-level length function, default separators `["\n\n", "\n", " ", ""]`,
  `keep_separator=True`, whitespace-stripped joins),
* the flat-L2 top-k retriever configured as
  `faiss.IndexFlatL2` + `index.as_retriever(similarity_top_k=5)`,
* the two pipeline runs as event-emitting sequential programs.

External adapters (search engine, page fetcher, embedding model, generation endpoint)
are parameters of the embedding; everything the repository itself does is explicit code.
-/

/-! ## Exceptions and generation results

A Python exception object, as seen by the `except Exception as err` handlers in both
notebooks.  The handlers access `err.message`; a Python exception need not carry a
`message` attribute, which we model with an `Option`: `none` means the attribute is
absent (accessing it raises `AttributeError`). -/

structure Exc where
  msg : Option String
deriving DecidableEq

/-- Outcome of one external generation call: the endpoint either returns a string
or raises an exception. -/
inductive GenResult
  | ok (s : String)
  | err (e : Exc)
deriving DecidableEq

/-- Outcome of running one notebook cell: it finishes normally with a string
(`ok`), re-raises an exception (`raised`), raises an `AttributeError` from inside
the handler (`attrError`), or prints the "model is not ready" message and ends
normally (`unavailableMsg`). -/
inductive RunOutcome
  | ok (s : String)
  | raised (e : Exc)
  | attrError
  | unavailableMsg
deriving DecidableEq

/-- Does `pat` occur as a contiguous run inside `text`?  This is Python's
`pat in text` / `re.search(re.escape(pat), text)` on plain strings. -/
def containsSub : List Char → List Char → Bool
  | pat, [] => pat.isEmpty
  | pat, c :: rest => pat.isPrefixOf (c :: rest) || containsSub pat rest

/-- The marker string both notebooks test for: `"Error code: 503" in err.message`. -/
def err503marker : String := "Error code: 503"

/-- Is `e` a service-unavailable exception in the sense of the notebooks' check:
it carries a `message` attribute whose value contains `"Error code: 503"`. -/
def is503 (e : Exc) : Bool :=
  match e.msg with
  | none => false
  | some m => containsSub err503marker.toList m.toList

/-- The basic-generation cell of both notebooks:
```
try:
    result = llm.chat(message)        # llm.invoke(message) in the SQL notebook
    print(f"Result: \n\n{result}")
except Exception as err:
    if "Error code: 503" in err.message:
        print(f"The model {GENERATOR_MODEL_NAME} is not ready yet.")
    else:
        raise
```
If the raised exception has no `message` attribute, the handler itself raises
`AttributeError`. -/
def basicGenCell (r : GenResult) : RunOutcome :=
  match r with
  | .ok s => .ok s
  | .err e =>
    match e.msg with
    | none => .attrError
    | some m =>
      if containsSub err503marker.toList m.toList then .unavailableMsg
      else .raised e

/-- The final RAG cells — `result = query_engine.query(query)` (web notebook) and
`result = db_chain.invoke(query)` (SQL notebook) — have no `try`/`except`:
whatever the call raises propagates to the notebook. -/
def ragCell (r : GenResult) : RunOutcome :=
  match r with
  | .ok s => .ok s
  | .err e => .raised e

/-! ## The text splitter

`RecursiveCharacterTextSplitter(chunk_size=512, chunk_overlap=32)` from the
`web_search` notebook, with the library defaults: separators
`["\n\n", "\n", " ", ""]`, `keep_separator=True` (separators are re-attached to
the split that follows them and chunks are merged with the empty separator),
`length_function=len`, `strip_whitespace=True`.  Text is modelled as `List Char`. -/

def chunk_size : Nat := 512

def chunk_overlap : Nat := 32

/-- Python whitespace, as stripped by `str.strip()`: CPython treats a code
point as whitespace when its bidirectional class is WS, B or S or its category
is Zs, giving exactly U+0009-U+000D, U+001C-U+001F, U+0020, U+0085, U+00A0,
U+1680, U+2000-U+200A, U+2028, U+2029, U+202F, U+205F and U+3000. -/
def isPySpace (c : Char) : Bool :=
  (0x09 ≤ c.toNat && c.toNat ≤ 0x0d) ||
  (0x1c ≤ c.toNat && c.toNat ≤ 0x20) ||
  c.toNat = 0x85 || c.toNat = 0xa0 || c.toNat = 0x1680 ||
  (0x2000 ≤ c.toNat && c.toNat ≤ 0x200a) ||
  c.toNat = 0x2028 || c.toNat = 0x2029 || c.toNat = 0x202f ||
  c.toNat = 0x205f || c.toNat = 0x3000

/-- Python `str.strip()`. -/
def pyStrip (l : List Char) : List Char :=
  ((l.dropWhile isPySpace).reverse.dropWhile isPySpace).reverse

/-- `TextSplitter._join_docs`: join with the separator, strip whitespace, and
return `None` when the result is empty. -/
def joinDocs (ds : List (List Char)) (sep : List Char) : Option (List Char) :=
  let text := pyStrip (List.flatten (ds.intersperse sep))
  if text = [] then none else some text

/-- The pop phase of `TextSplitter._merge_splits`: while the running total is
above the overlap budget (or would overflow the chunk size together with the
incoming split), drop splits from the front of the current document.
(The loop can only run while the current document is non-empty.) -/
def popLoop (sepLen dLen : Nat) : List (List Char) → Nat → List (List Char) × Nat
  | [], total => ([], total)
  | c :: cs, total =>
    if total > chunk_overlap ∨
        (total + dLen + (if (c :: cs).length > 0 then sepLen else 0) > chunk_size ∧ total > 0) then
      popLoop sepLen dLen cs (total - (c.length + (if (c :: cs).length > 1 then sepLen else 0)))
    else (c :: cs, total)

/-- The main loop of `TextSplitter._merge_splits`: accumulate splits into
`currentDoc` until the next split would overflow `chunk_size`; then emit the
joined current document, pop from its front down to the overlap budget, and
continue. -/
def mergeLoop (sep : List Char) :
    List (List Char) → List (List Char) → Nat → List (List Char) → List (List Char)
  | docs, currentDoc, _total, [] => docs ++ (joinDocs currentDoc sep).toList
  | docs, currentDoc, total, d :: rest =>
    if total + d.length + (if currentDoc.length > 0 then sep.length else 0) > chunk_size then
      mergeLoop sep (docs ++ (joinDocs currentDoc sep).toList)
        ((popLoop sep.length d.length currentDoc total).1 ++ [d])
        ((popLoop sep.length d.length currentDoc total).2 + d.length +
          (if (popLoop sep.length d.length currentDoc total).1.length > 0 then sep.length else 0))
        rest
    else
      mergeLoop sep docs (currentDoc ++ [d])
        (total + d.length + (if currentDoc.length > 0 then sep.length else 0)) rest

/-- `TextSplitter._merge_splits`. -/
def mergeSplits (splits : List (List Char)) (sep : List Char) : List (List Char) :=
  mergeLoop sep [] [] 0 splits

/-- Split `text` at every occurrence of the (non-empty) separator `s :: sep'`,
returning the parts between occurrences.  The `fuel` argument is an upper bound
on the number of characters still to be consumed (passing `text.length` is
always enough); it only makes the recursion structural. -/
def splitOnSepAux (s : Char) (sep' : List Char) : Nat → List Char → List Char → List (List Char)
  | 0, acc, t => [acc.reverse ++ t]
  | _fuel + 1, acc, [] => [acc.reverse]
  | fuel + 1, acc, c :: rest =>
    if (s :: sep').isPrefixOf (c :: rest) then
      acc.reverse :: splitOnSepAux s sep' fuel [] ((c :: rest).drop (s :: sep').length)
    else
      splitOnSepAux s sep' fuel (c :: acc) rest

/-- `_split_text_with_regex(text, separator, keep_separator=True)`: split on the
separator, re-attach each separator occurrence to the part that follows it, and
drop empty parts.  The empty separator splits into single characters. -/
def splitTextWithSep (sep : List Char) (text : List Char) : List (List Char) :=
  match sep with
  | [] => (text.map (fun c => [c])).filter (fun s => s ≠ [])
  | s :: sep' =>
    match splitOnSepAux s sep' text.length [] text with
    | [] => []
    | p0 :: ps => (p0 :: ps.map (fun p => (s :: sep') ++ p)).filter (fun q => q ≠ [])

/-- The separator-selection loop at the top of
`RecursiveCharacterTextSplitter._split_text`: pick the first separator from the
list that is `""` or occurs in the text, together with the remaining separators;
default to the last separator with no remainder. -/
def chooseSep (last : List Char) (text : List Char) : List (List Char) → List Char × List (List Char)
  | [] => (last, [])
  | s :: rest =>
    if s = [] then ([], [])
    else if containsSub s text then (s, rest) else chooseSep last text rest

/-- One merge-or-recurse step over the splits of
`RecursiveCharacterTextSplitter._split_text`: runs of splits shorter than
`chunk_size` are buffered and merged; an oversized split flushes the buffer and
is handled by `recurse` (recursion on the remaining separators, or kept whole
when no separators remain).  `keep_separator=True` makes the merge separator
empty. -/
def splitStep (recurse : List Char → List (List Char))
    (st : List (List Char) × List (List Char)) (s : List Char) :
    List (List Char) × List (List Char) :=
  if s.length < chunk_size then (st.1, st.2 ++ [s])
  else (st.1 ++ mergeSplits st.2 [] ++ recurse s, [])

/-- `RecursiveCharacterTextSplitter._split_text(text, separators)`.  The fuel
only bounds the recursion depth through the separator list; any fuel larger
than the separator-list length is enough, and the result is independent of it
on every reachable call. -/
def splitTextFuel : Nat → List (List Char) → List Char → List (List Char)
  | 0, _, text => [text]
  | fuel + 1, seps, text =>
    let pair := chooseSep (seps.getLastD []) text seps
    let splits := splitTextWithSep pair.1 text
    let recurse := fun s =>
      if pair.2.isEmpty then [s] else splitTextFuel fuel pair.2 s
    let fin := splits.foldl (splitStep recurse) ([], [])
    fin.1 ++ mergeSplits fin.2 []

/-- The default separator list of `RecursiveCharacterTextSplitter`. -/
def defaultSeparators : List (List Char) := [['\n', '\n'], ['\n'], [' '], []]

/-- `RecursiveCharacterTextSplitter(chunk_size=512, chunk_overlap=32).split_text`. -/
def splitText (text : List Char) : List (List Char) :=
  splitTextFuel 8 defaultSeparators text

/-- The last `n` elements of a list. -/
def lastN (n : Nat) (l : List Char) : List Char := l.drop (l.length - n)

/-- Characterization of the splitter on separator-free text: sliding windows of
`chunk_size` characters advancing by `chunk_size - chunk_overlap`. -/
def windows (l : List Char) : List (List Char) :=
  if h : l.length ≤ chunk_size then (if l.isEmpty then [] else [l])
  else l.take chunk_size :: windows (l.drop (chunk_size - chunk_overlap))
termination_by l.length
decreasing_by
  simp only [List.length_drop, chunk_size, chunk_overlap] at *
  omega

/-! ## The retriever

`faiss.IndexFlatL2` with `index.as_retriever(similarity_top_k=5)` and
`retriever.retrieve(query)`: exact nearest-neighbour search under squared L2
distance over the stored (chunk, embedding) pairs, returning the best
`similarity_top_k` matches in order of increasing distance (decreasing
similarity).  Embedding vectors are modelled as integer vectors; the ordering
properties at issue do not depend on the scalar type. -/

def similarity_top_k : Nat := 5

/-- Squared L2 distance, the score of `faiss.IndexFlatL2`. -/
def l2sq (u v : List Int) : Int :=
  (List.zipWith (fun a b => (a - b) * (a - b)) u v).sum

/-- `retriever.retrieve(query)` on a flat L2 index: all stored entries sorted by
distance to the query vector, truncated to `similarity_top_k`. -/
def retrieveTopK (idx : List (List Char × List Int)) (qv : List Int) :
    List (List Char × List Int) :=
  (idx.insertionSort (fun a b => l2sq qv a.2 ≤ l2sq qv b.2)).take similarity_top_k

/-! ## The two pipeline runs

Each notebook is a linear script; we model a run as a pure function of the
external adapters and of the query, which also records the sequence of stage
events in execution order and the argument passed at each query-consuming call
site. -/

/-- Pipeline stages, at the granularity of the spec's two pipeline diagrams. -/
inductive Stage
  | search | fetch | extract | chunk | embed | indexAdd | retrieve | assemble | llmCall
  | introspect | sqlExec
deriving DecidableEq

/-- Position of each stage in the spec's "Unstructured retrieval pipeline"
diagram (`introspect`/`sqlExec` belong to the SQL diagram and are ranked with
the stages they correspond to). -/
def stageRank : Stage → Nat
  | .search => 0
  | .fetch => 1
  | .extract => 2
  | .chunk => 3
  | .embed => 4
  | .indexAdd => 5
  | .retrieve => 6
  | .assemble => 7
  | .llmCall => 8
  | .introspect => 0
  | .sqlExec => 6

/-- An event list realises the claimed phase order when every event of a later
stage comes after every event of an earlier stage. -/
def phaseOrdered (evs : List Stage) : Prop :=
  List.Pairwise (fun a b => stageRank a ≤ stageRank b) evs

/-- External services used by the web-search notebook: the search provider
(`googlesearch.search`), page fetcher (`requests.get`), text extractor
(`BeautifulSoup(...).get_text()`), embedding model (`HuggingFaceEmbedding`) and
the hosted generation endpoint (`OpenAILike` / KScope). -/
structure WebEnv where
  searchAll : String → List String
  fetchPage : String → String
  extractText : String → String
  embedVec : String → List Int
  generate : String → GenResult

/-- The ingestion loop of the web notebook:
```
for result_url in search(query, tld="com", num=5, stop=10, pause=2):
    response = requests.get(result_url)
    soup = BeautifulSoup(response.content, 'html.parser')
    web_documents.append(soup.get_text())
```
one document appended per URL, a fetch event followed by an extract event each. -/
def fetchLoop (env : WebEnv) : List String → List String × List Stage
  | [] => ([], [])
  | u :: us =>
    let d := env.extractText (env.fetchPage u)
    let r := fetchLoop env us
    (d :: r.1, Stage.fetch :: Stage.extract :: r.2)

/-- The prompt assembled by `RetrieverQueryEngine` from the retrieved context
and the query. -/
def makePrompt (ctx : List String) (q : String) : String :=
  String.intercalate "\n" ctx ++ "\n" ++ q

/-- Everything one run of the web RAG pipeline produces. -/
structure WebRun where
  urls : List String
  docs : List String
  chunks : List (List Char)
  retrieved : List (List Char × List Int)
  outcome : RunOutcome
  events : List Stage
  queryArgs : List String

/-- The web notebook's RAG pipeline (ingestion cell through
`result = query_engine.query(query)`), in source order: Google search with
`stop=10` (at most ten result URLs), fetch + extract per URL, chunking with
`splitText` per document, embedding each chunk into the FAISS index, top-5
retrieval for the query embedding, prompt assembly, and the single uncaught
generation call.  `queryArgs` records the string passed at each of the three
query-consuming call sites (`search(query, ...)`, `retriever.retrieve(query)`,
`query_engine.query(query)`). -/
def webPipeline (env : WebEnv) (q : String) : WebRun :=
  let urls := (env.searchAll q).take 10
  let fr := fetchLoop env urls
  let chunks := (fr.1.map (fun d => splitText d.toList)).flatten
  let idx := chunks.map (fun c => (c, env.embedVec (String.mk c)))
  let retrieved := retrieveTopK idx (env.embedVec q)
  let res := env.generate (makePrompt (retrieved.map (fun p => String.mk p.1)) q)
  ⟨urls, fr.1, chunks, retrieved, ragCell res,
    Stage.search :: fr.2 ++
      [Stage.chunk, Stage.embed, Stage.indexAdd, Stage.retrieve, Stage.assemble, Stage.llmCall],
    [q, q, q]⟩

/-- One full run of the web notebook: the basic (non-RAG) generation cell with
its 503 handler, then the RAG pipeline.  The basic cell passes `query` as the
chat message content, adding one generation event and one query-consuming call
site before the pipeline. -/
structure WebNotebookRun where
  basicOutcome : RunOutcome
  pipe : WebRun
  events : List Stage
  queryArgs : List String

def webNotebook (env : WebEnv) (q : String) : WebNotebookRun :=
  let basic := basicGenCell (env.generate q)
  let pipe := webPipeline env q
  ⟨basic, pipe, Stage.llmCall :: pipe.events, q :: pipe.queryArgs⟩

/-- External services used by the SQL notebook: the hosted chat endpoint
(`ChatOpenAI`), the introspected schema (`SQLDatabase.from_uri`), and SQL
execution against the SQLite database. -/
structure SqlEnv where
  invokeLLM : String → GenResult
  schemaInfo : String
  runSql : String → String

/-- Modelled from the spec: the prompt the external `SQLDatabaseChain`
dependency sends to have the LLM translate the question into SQL ("Schema
introspector → LLM-driven SQL generator"); the chain itself is a library
dependency, so only its spec-level shape is modelled. -/
def sqlGenPrompt (schema q : String) : String :=
  schema ++ "\n" ++ q

/-- Modelled from the spec: the prompt the external `SQLDatabaseChain` sends to
have the LLM format the SQL result as natural language ("SQL executor →
result-to-natural-language formatter"). -/
def answerPrompt (schema q sqlText rows : String) : String :=
  schema ++ "\n" ++ q ++ "\n" ++ sqlText ++ "\n" ++ rows

/-- Everything one run of the SQL chain produces. -/
structure SqlRun where
  outcome : RunOutcome
  events : List Stage
  queryArgs : List String

/-- Modelled from the spec: `db_chain.invoke(query)` — the spec's "Structured
retrieval pipeline": schema introspection, an LLM call generating SQL, SQL
execution, and an LLM call formatting the result.  The notebook wraps this call
in no `try`/`except`, so any exception from either LLM call propagates. -/
def sqlChain (env : SqlEnv) (q : String) : SqlRun :=
  match env.invokeLLM (sqlGenPrompt env.schemaInfo q) with
  | .err e => ⟨.raised e, [Stage.introspect, Stage.llmCall], [q]⟩
  | .ok sqlText =>
    let rows := env.runSql sqlText
    ⟨ragCell (env.invokeLLM (answerPrompt env.schemaInfo q sqlText rows)),
      [Stage.introspect, Stage.llmCall, Stage.sqlExec, Stage.llmCall], [q]⟩

/-- One full run of the SQL notebook: the basic generation cell with its 503
handler (`llm.invoke(message)` on the raw query), then
`result = db_chain.invoke(query)`. -/
structure SqlNotebookRun where
  basicOutcome : RunOutcome
  chain : SqlRun
  events : List Stage
  queryArgs : List String

def sqlNotebook (env : SqlEnv) (q : String) : SqlNotebookRun :=
  let basic := basicGenCell (env.invokeLLM q)
  let ch := sqlChain env q
  ⟨basic, ch, Stage.llmCall :: ch.events, q :: ch.queryArgs⟩

/-- Number of generation-endpoint calls at or after the first occurrence of the
`marker` stage (the retrieval stage of the respective pipeline). -/
def gensAfter (marker : Stage) (evs : List Stage) : Nat :=
  ((evs.dropWhile (fun e => decide (e ≠ marker))).filter (fun e => decide (e = Stage.llmCall))).length

/-- A well-behaved generation endpoint, as presupposed by the spec's outcome
property: every call returns a non-empty string or raises a service-unavailable
exception. -/
def wellBehaved (r : GenResult) : Prop :=
  match r with
  | .ok s => s ≠ ""
  | .err e => is503 e = true

/-- The spec's claimed outcome for a run: a non-empty answer string, or a
service-unavailable exception. -/
def goodOutcome (o : RunOutcome) : Prop :=
  (∃ s, o = RunOutcome.ok s ∧ s ≠ "") ∨ (∃ e, o = RunOutcome.raised e ∧ is503 e = true)

/-! ## Concrete adapters used in counterexamples and witnesses -/

/-- A web environment whose generation endpoint answers every prompt with the
empty string (nothing else matters: the search yields no URLs). -/
def envEmptyAnswer : WebEnv :=
  ⟨fun _ => [], fun _ => "", fun _ => "", fun _ => [], fun _ => GenResult.ok ""⟩

/-- A web environment whose generation endpoint answers every prompt with a
fixed non-empty string. -/
def envGoodWeb : WebEnv :=
  ⟨fun _ => [], fun _ => "", fun _ => "", fun _ => [], fun _ => GenResult.ok "answer"⟩

/-- A SQL environment whose endpoint answers every prompt with a fixed
non-empty string. -/
def envGoodSql : SqlEnv :=
  ⟨fun _ => GenResult.ok "answer", "schema", fun _ => "rows"⟩

/-- A service-unavailable exception as the endpoint raises it. -/
def exc503 : Exc := ⟨some "Error code: 503 - Service Unavailable"⟩

/-- A web environment whose generation endpoint raises `exc503` on every call. -/
def envRaise503 : WebEnv :=
  ⟨fun _ => [], fun _ => "", fun _ => "", fun _ => [], fun _ => GenResult.err exc503⟩

/-- A web environment whose search yields two URLs. -/
def envTwoUrls : WebEnv :=
  ⟨fun _ => ["u1", "u2"], fun _ => "", fun _ => "", fun _ => [], fun _ => GenResult.ok "r"⟩

/-- A document of six 100-character words separated by single spaces
(605 characters in all). -/
def c3doc : List Char :=
  List.replicate 100 'A' ++ [' '] ++ List.replicate 100 'B' ++ [' '] ++
  List.replicate 100 'C' ++ [' '] ++ List.replicate 100 'D' ++ [' '] ++
  List.replicate 100 'E' ++ [' '] ++ List.replicate 100 'F'

/-- Boolean check that consecutive chunks share exactly the overlap-sized
boundary: the last `chunk_overlap` characters of each chunk equal the first
`chunk_overlap` characters of the next. -/
def chainOverlapB : List (List Char) → Bool
  | [] => true
  | [_] => true
  | a :: b :: t => (decide (lastN chunk_overlap a = b.take chunk_overlap)) && chainOverlapB (b :: t)

theorem windows_small {l : List Char} (h : l.length ≤ chunk_size) :
    windows l = if l.isEmpty then [] else [l] := by
  rw [windows]
  simp [h]

theorem windows_big {l : List Char} (h : chunk_size < l.length) :
    windows l = l.take chunk_size :: windows (l.drop (chunk_size - chunk_overlap)) := by
  rw [windows]
  simp [Nat.not_le.mpr h]

theorem containsSub_eq_false {c : Char} {p t : List Char} (h : c ∉ t) :
    containsSub (c :: p) t = false := by
  induction t with
  | nil => rfl
  | cons d rest ih =>
    have hcd : c ≠ d := fun hc => h (hc ▸ List.mem_cons_self d rest)
    have hrest : c ∉ rest := fun hc => h (List.mem_cons_of_mem d hc)
    simp [containsSub, List.isPrefixOf, ih hrest, beq_eq_false_iff_ne.mpr hcd]

theorem chooseSep_wsFree {text : List Char} (hn : '\n' ∉ text) (hs : ' ' ∉ text)
    (last : List Char) : chooseSep last text defaultSeparators = ([], []) := by
  simp [defaultSeparators, chooseSep, containsSub_eq_false hn, containsSub_eq_false hs]

theorem filter_singletons (text : List Char) :
    ((text.map (fun c => [c])).filter (fun s => s ≠ [])) = text.map (fun c => [c]) := by
  refine List.filter_eq_self.mpr ?_
  intro a ha
  rcases List.mem_map.mp ha with ⟨c, _, rfl⟩
  simp

theorem dropWhile_of_all_false {l : List Char} (h : ∀ c ∈ l, isPySpace c = false) :
    l.dropWhile isPySpace = l := by
  cases l with
  | nil => rfl
  | cons c cs => rw [List.dropWhile_cons, h c (List.mem_cons_self c cs)]; simp

theorem pyStrip_eq_self {l : List Char} (h : ∀ c ∈ l, isPySpace c = false) :
    pyStrip l = l := by
  unfold pyStrip
  rw [dropWhile_of_all_false h, dropWhile_of_all_false (by simpa using h), List.reverse_reverse]

theorem flatten_intersperse_nil (xs : List (List Char)) :
    (xs.intersperse []).flatten = xs.flatten := by
  induction xs with
  | nil => rfl
  | cons a t ih =>
    cases t with
    | nil => rfl
    | cons b t' => simp only [List.intersperse_cons₂, List.flatten_cons] at *; simp [ih]

theorem flatten_map_singleton (l : List Char) : (l.map (fun c => [c])).flatten = l := by
  induction l with
  | nil => rfl
  | cons c cs ih => simp [ih]

theorem joinDocs_singletons {l : List Char} (h : ∀ c ∈ l, isPySpace c = false) :
    joinDocs (l.map (fun c => [c])) [] = if l.isEmpty then none else some l := by
  unfold joinDocs
  rw [flatten_intersperse_nil, flatten_map_singleton, pyStrip_eq_self h]
  cases l <;> simp

theorem popLoop_singletons : ∀ l : List Char,
    popLoop 0 1 (l.map (fun c => [c])) l.length =
      ((l.drop (l.length - chunk_overlap)).map (fun c => [c]), min l.length chunk_overlap) := by
  intro l
  induction l with
  | nil => simp [popLoop, chunk_overlap]
  | cons c cs ih =>
    by_cases h32 : cs.length + 1 ≤ chunk_overlap
    · rw [List.map_cons, popLoop, if_neg]
      · have h0 : (c :: cs).length - chunk_overlap = 0 := by
          simp only [List.length_cons]; omega
        rw [h0]
        simp only [List.drop_zero, List.map_cons, List.length_cons]
        have : min (cs.length + 1) chunk_overlap = cs.length + 1 := by omega
        rw [this]
      · simp only [List.length_cons, chunk_overlap, chunk_size, ite_self] at *
        omega
    · rw [List.map_cons, popLoop, if_pos]
      · have harg : (c :: cs).length - ([c].length + (if ([c] :: cs.map (fun c => [c])).length > 1 then 0 else 0)) = cs.length := by
          simp only [List.length_cons, List.length_singleton, List.length_nil, ite_self]
          omega
        rw [harg, ih]
        have hge : chunk_overlap ≤ cs.length := by
          simp only [List.length_cons, chunk_overlap] at *; omega
        have hdrop : (c :: cs).length - chunk_overlap = (cs.length - chunk_overlap) + 1 := by
          simp only [List.length_cons]; omega
        rw [hdrop, List.drop_succ_cons]
        have hmin1 : min cs.length chunk_overlap = chunk_overlap := by omega
        have hmin2 : min (c :: cs).length chunk_overlap = chunk_overlap := by
          simp only [List.length_cons]; omega
        rw [hmin1, hmin2]
      · simp only [List.length_cons, ite_self]
        left
        omega

theorem foldl_splitStep_small (recurse : List Char → List (List Char)) :
    ∀ (splits : List (List Char)) (acc goods : List (List Char)),
      (∀ s ∈ splits, s.length < chunk_size) →
      splits.foldl (splitStep recurse) (acc, goods) = (acc, goods ++ splits) := by
  intro splits
  induction splits with
  | nil => intro acc goods _; simp
  | cons s rest ih =>
    intro acc goods h
    rw [List.foldl_cons]
    have hs : splitStep recurse (acc, goods) s = (acc, goods ++ [s]) := by
      unfold splitStep
      rw [if_pos (h s (List.mem_cons_self s rest))]
    rw [hs, ih _ _ (fun t ht => h t (List.mem_cons_of_mem s ht))]
    simp

theorem mergeLoop_windows : ∀ (rest cur : List Char) (docs : List (List Char)),
    cur.length ≤ chunk_size →
    (∀ c ∈ cur, isPySpace c = false) →
    (∀ c ∈ rest, isPySpace c = false) →
    mergeLoop [] docs (cur.map (fun c => [c])) cur.length (rest.map (fun c => [c]))
      = docs ++ windows (cur ++ rest) := by
  intro rest
  induction rest with
  | nil =>
    intro cur docs hle hws _
    rw [List.map_nil, mergeLoop, joinDocs_singletons hws, List.append_nil]
    cases cur with
    | nil => rw [windows_small (by simp [chunk_size])]; simp
    | cons c cs => rw [windows_small hle]; simp
  | cons a rest' ih =>
    intro cur docs hle hws hrest
    have hwa : isPySpace a = false := hrest a (List.mem_cons_self a rest')
    have hrest' : ∀ c ∈ rest', isPySpace c = false :=
      fun c hc => hrest c (List.mem_cons_of_mem a hc)
    rw [List.map_cons, mergeLoop]
    simp only [List.length_singleton, List.length_nil, ite_self, Nat.add_zero]
    split
    next hbig =>
      have hcur : cur.length = chunk_size := by omega
      have hne : ¬ cur.isEmpty = true := by
        intro hE
        rw [List.isEmpty_iff] at hE
        subst hE
        simp [chunk_size] at hcur
      rw [joinDocs_singletons hws, if_neg hne, popLoop_singletons]
      have hmin : min cur.length chunk_overlap = chunk_overlap := by
        rw [hcur]; decide
      rw [hmin]
      have hmap : (cur.drop (cur.length - chunk_overlap)).map (fun c => [c]) ++ [[a]]
          = (cur.drop (cur.length - chunk_overlap) ++ [a]).map (fun c => [c]) := by
        simp
      rw [hmap]
      have hlen : (cur.drop (cur.length - chunk_overlap) ++ [a]).length = chunk_overlap + 1 := by
        simp only [List.length_append, List.length_drop, List.length_singleton]
        rw [hcur]; decide
      rw [← hlen]
      have hws2 : ∀ c ∈ cur.drop (cur.length - chunk_overlap) ++ [a], isPySpace c = false := by
        intro c hc
        rcases List.mem_append.mp hc with hc1 | hc2
        · exact hws c (List.drop_subset _ _ hc1)
        · rw [List.mem_singleton.mp hc2]; exact hwa
      simp only [Option.toList_some]
      rw [ih _ (docs ++ [cur]) (by rw [hlen]; simp [chunk_size, chunk_overlap]) hws2 hrest']
      have hbig2 : chunk_size < (cur ++ a :: rest').length := by
        simp only [List.length_append, List.length_cons]
        omega
      rw [windows_big hbig2]
      have htake : (cur ++ a :: rest').take chunk_size = cur := List.take_left' hcur
      have hdrop2 : (cur ++ a :: rest').drop (chunk_size - chunk_overlap)
          = cur.drop (chunk_size - chunk_overlap) ++ a :: rest' :=
        List.drop_append_of_le_length (by omega)
      rw [htake, hdrop2, hcur]
      simp [List.append_assoc]
    next hsmall =>
      have hmap2 : cur.map (fun c => [c]) ++ [[a]] = (cur ++ [a]).map (fun c => [c]) := by
        simp
      have hlen2 : (cur ++ [a]).length = cur.length + 1 := by simp
      rw [hmap2, ← hlen2]
      have hws2 : ∀ c ∈ cur ++ [a], isPySpace c = false := by
        intro c hc
        rcases List.mem_append.mp hc with hc1 | hc2
        · exact hws c hc1
        · rw [List.mem_singleton.mp hc2]; exact hwa
      rw [ih _ docs (by rw [hlen2]; omega) hws2 hrest']
      simp [List.append_assoc]

theorem windows_head {l : List Char} (h : l ≠ []) :
    (windows l).head? = some (l.take chunk_size) := by
  by_cases hle : l.length ≤ chunk_size
  · rw [windows_small hle, List.take_of_length_le hle]
    simp [h]
  · rw [windows_big (Nat.not_le.mp hle)]
    rfl

theorem windows_chain (l : List Char) :
    List.Chain' (fun a b => lastN chunk_overlap a = b.take chunk_overlap) (windows l) := by
  by_cases hle : l.length ≤ chunk_size
  · rw [windows_small hle]
    split
    · exact List.chain'_nil
    · exact List.chain'_singleton _
  · rw [windows_big (Nat.not_le.mp hle), List.chain'_cons']
    constructor
    · intro y hy
      have hne : l.drop (chunk_size - chunk_overlap) ≠ [] := by
        apply List.ne_nil_of_length_pos
        simp only [List.length_drop, chunk_size, chunk_overlap] at *
        omega
      rw [windows_head hne] at hy
      rw [Option.mem_some_iff] at hy
      subst hy
      rw [List.take_take]
      have hm : min chunk_overlap chunk_size = chunk_overlap := by decide
      rw [hm]
      unfold lastN
      have hlt : (l.take chunk_size).length = chunk_size := by
        simp only [List.length_take]
        omega
      rw [hlt, List.drop_take]
      have : chunk_size - (chunk_size - chunk_overlap) = chunk_overlap := by decide
      rw [this]
    · exact windows_chain (l.drop (chunk_size - chunk_overlap))
termination_by l.length
decreasing_by
  simp only [List.length_drop, chunk_size, chunk_overlap] at *
  omega

theorem windows_length (l : List Char) (h : chunk_overlap < l.length) :
    (windows l).length
      = (l.length - chunk_overlap + (chunk_size - chunk_overlap) - 1) / (chunk_size - chunk_overlap) := by
  by_cases hle : l.length ≤ chunk_size
  · rw [windows_small hle]
    have hne : l.isEmpty = false := by
      cases l with
      | nil => simp [chunk_overlap] at h
      | cons c cs => rfl
    have hif : (if (false = true) then ([] : List (List Char)) else [l]) = [l] := by simp
    rw [hne, hif]
    simp only [List.length_singleton, chunk_size, chunk_overlap] at *
    omega
  · rw [windows_big (Nat.not_le.mp hle)]
    have hrec := windows_length (l.drop (chunk_size - chunk_overlap))
      (by simp only [List.length_drop, chunk_size, chunk_overlap] at *; omega)
    rw [List.length_cons, hrec]
    simp only [List.length_drop, chunk_size, chunk_overlap] at *
    omega
termination_by l.length
decreasing_by
  simp only [List.length_drop, chunk_size, chunk_overlap] at *
  omega

theorem splitText_eq_windows {text : List Char} (hws : ∀ c ∈ text, isPySpace c = false) :
    splitText text = windows text := by
  have hn : '\n' ∉ text := fun hmem => by
    have h1 := hws _ hmem
    rw [show isPySpace '\n' = true from by decide] at h1
    exact Bool.noConfusion h1
  have hsp : ' ' ∉ text := fun hmem => by
    have h1 := hws _ hmem
    rw [show isPySpace ' ' = true from by decide] at h1
    exact Bool.noConfusion h1
  have h8 : splitText text = splitTextFuel (7 + 1) defaultSeparators text := rfl
  rw [h8, splitTextFuel]
  have hlast : defaultSeparators.getLastD [] = ([] : List Char) := rfl
  rw [hlast, chooseSep_wsFree hn hsp]
  simp only [splitTextWithSep, List.isEmpty_nil, if_true, filter_singletons]
  rw [foldl_splitStep_small _ _ _ _ (by intro s hs; rcases List.mem_map.mp hs with ⟨c, _, rfl⟩; simp [chunk_size])]
  show mergeLoop [] [] (([] : List Char).map (fun c => [c])) ([] : List Char).length
      (text.map (fun c => [c])) = windows text
  rw [mergeLoop_windows text [] [] (by simp [chunk_size]) (by intro c hc; cases hc) hws]
  simp

theorem ragCell_wellBehaved (r : GenResult) (h : wellBehaved r) : goodOutcome (ragCell r) := by
  cases r with
  | ok s => exact Or.inl ⟨s, rfl, h⟩
  | err e => exact Or.inr ⟨e, rfl, h⟩

theorem fetchLoop_events (env : WebEnv) : ∀ us : List String,
    (fetchLoop env us).2 = (List.replicate us.length [Stage.fetch, Stage.extract]).flatten := by
  intro us
  induction us with
  | nil => rfl
  | cons u us ih => simp [fetchLoop, ih, List.replicate_succ]

theorem fetchLoop_length (env : WebEnv) : ∀ us : List String,
    (fetchLoop env us).1.length = us.length := by
  intro us
  induction us with
  | nil => rfl
  | cons u us ih => simp [fetchLoop, ih]

theorem dropWhile_append_of_all {α : Type} {p : α → Bool} :
    ∀ (l₁ l₂ : List α), (∀ e ∈ l₁, p e = true) →
      (l₁ ++ l₂).dropWhile p = l₂.dropWhile p := by
  intro l₁
  induction l₁ with
  | nil => intro l₂ _; rfl
  | cons a l ih =>
    intro l₂ h
    rw [List.cons_append, List.dropWhile_cons, h a (List.mem_cons_self a l)]
    exact ih l₂ (fun e he => h e (List.mem_cons_of_mem a he)) ▸ rfl

/-- Claim C2: for every indexed chunk set and every query embedding, the
retriever returns at most `similarity_top_k = 5` chunks, ordered by ascending
squared-L2 distance to the query embedding (descending similarity). -/
theorem retrieval_topk_bounded_sorted (idx : List (List Char × List Int)) (qv : List Int) :
    (retrieveTopK idx qv).length ≤ similarity_top_k ∧
    List.Sorted (fun a b => l2sq qv a.2 ≤ l2sq qv b.2) (retrieveTopK idx qv) := by
  constructor
  · exact List.length_take_le _ _
  · unfold retrieveTopK
    haveI : IsTotal (List Char × List Int) (fun a b => l2sq qv a.2 ≤ l2sq qv b.2) :=
      ⟨fun a b => le_total _ _⟩
    haveI : IsTrans (List Char × List Int) (fun a b => l2sq qv a.2 ≤ l2sq qv b.2) :=
      ⟨fun a b c h1 h2 => le_trans h1 h2⟩
    exact List.Pairwise.sublist (List.take_sublist _ _) (List.sorted_insertionSort _ _)

/-- Claim C9: in every run of the web pipeline, the number of source documents
equals the number of URLs yielded by the search call (exactly one extracted
document appended per URL), and the URL count is capped at 10 by `stop=10`. -/
theorem web_docs_per_url (env : WebEnv) (q : String) :
    (webPipeline env q).docs.length = (webPipeline env q).urls.length ∧
    (webPipeline env q).urls.length ≤ 10 := by
  constructor
  · simp only [webPipeline]
    exact fetchLoop_length env _
  · simp only [webPipeline]
    exact List.length_take_le _ _

/-- Claim C7: the user-supplied query string is immutable across one run: every
query-consuming call site of both notebooks (basic generation call, web search,
top-k retrieval, final RAG / chain call) receives exactly the string bound at
the start of the run. -/
theorem query_immutable :
    (∀ (env : WebEnv) (q : String),
      (webNotebook env q).queryArgs.all (fun s => s == q) = true) ∧
    (∀ (env : SqlEnv) (q : String),
      (sqlNotebook env q).queryArgs.all (fun s => s == q) = true) := by
  constructor
  · intro env q
    simp [webNotebook, webPipeline]
  · intro env q
    cases h : env.invokeLLM (sqlGenPrompt env.schemaInfo q) with
    | ok s => simp [sqlNotebook, sqlChain, h]
    | err e => simp [sqlNotebook, sqlChain, h]

/-- Claim C10: the 503 special case tests `"Error code: 503" in err.message`;
for every exception lacking a `message` attribute, the handler itself fails
with an `AttributeError` instead of printing the message or re-raising the
original exception. -/
theorem handler_fails_without_message_attr (e : Exc) (h : e.msg = none) :
    basicGenCell (GenResult.err e) = RunOutcome.attrError := by
  simp [basicGenCell, h]

theorem handler_fails_without_message_attr_witness :
    basicGenCell (GenResult.err ⟨none⟩) = RunOutcome.attrError :=
  handler_fails_without_message_attr ⟨none⟩ rfl

/-- Counterexample to claim C5: a service-unavailable (503) exception raised by
the final RAG generation call is not special-cased with a message print — it
propagates out of the run unhandled. -/
theorem rag_503_not_special_cased :
    is503 exc503 = true ∧
    (webPipeline envRaise503 "x").outcome = RunOutcome.raised exc503 := by
  constructor
  · decide
  · rfl

/-- Claim C5 (amended): only the first (basic, pre-RAG) generation call
special-cases service-unavailable errors, and only for exceptions carrying a
`message` attribute — a 503-message exception is handled with a print, any
other message-carrying exception is re-raised — while the final RAG / chain
generation call propagates every exception unchanged, including 503. -/
theorem gen_error_handling_per_call :
    (∀ (e : Exc) (m : String), e.msg = some m →
      (containsSub err503marker.toList m.toList = true →
        basicGenCell (GenResult.err e) = RunOutcome.unavailableMsg) ∧
      (containsSub err503marker.toList m.toList = false →
        basicGenCell (GenResult.err e) = RunOutcome.raised e)) ∧
    (∀ e : Exc, ragCell (GenResult.err e) = RunOutcome.raised e) := by
  constructor
  · intro e m hm
    constructor <;> intro hc <;> simp only [String.toList] at hc <;> simp [basicGenCell, hm, hc]
  · intro e
    rfl

theorem gen_error_handling_per_call_witness :
    basicGenCell (GenResult.err exc503) = RunOutcome.unavailableMsg ∧
    ragCell (GenResult.err exc503) = RunOutcome.raised exc503 :=
  ⟨(gen_error_handling_per_call.1 exc503 "Error code: 503 - Service Unavailable" rfl).1 (by decide),
   gen_error_handling_per_call.2 exc503⟩

/-- Claim C4: in every run of either notebook, the hosted generation endpoint
is called exactly once after the retrieval stage (`retriever.retrieve` in the
web pipeline, SQL execution in the structured pipeline); no run issues a second
generation call after retrieval.  For the SQL chain this presupposes the
SQL-generating call succeeded (otherwise the chain aborts before execution). -/
theorem gen_called_once_after_retrieval :
    (∀ (env : WebEnv) (q : String),
      gensAfter Stage.retrieve (webNotebook env q).events = 1) ∧
    (∀ (env : SqlEnv) (q : String),
      (∃ s, env.invokeLLM (sqlGenPrompt env.schemaInfo q) = GenResult.ok s) →
      gensAfter Stage.sqlExec (sqlNotebook env q).events = 1) := by
  constructor
  · intro env q
    have hev : (webNotebook env q).events =
        ([Stage.llmCall, Stage.search] ++
          (List.replicate ((env.searchAll q).take 10).length [Stage.fetch, Stage.extract]).flatten) ++
        [Stage.chunk, Stage.embed, Stage.indexAdd, Stage.retrieve, Stage.assemble, Stage.llmCall] := by
      simp [webNotebook, webPipeline, fetchLoop_events]
    have hall : ∀ e ∈ [Stage.llmCall, Stage.search] ++
        (List.replicate ((env.searchAll q).take 10).length [Stage.fetch, Stage.extract]).flatten,
        decide (e ≠ Stage.retrieve) = true := by
      intro e he
      rcases List.mem_append.mp he with h1 | h2
      · simp only [List.mem_cons, List.not_mem_nil, or_false] at h1
        rcases h1 with h | h <;> subst h <;> decide
      · rcases List.mem_flatten.mp h2 with ⟨l, hl, hel⟩
        rw [List.eq_of_mem_replicate hl] at hel
        simp only [List.mem_cons, List.not_mem_nil, or_false] at hel
        rcases hel with h | h <;> subst h <;> decide
    unfold gensAfter
    rw [hev, dropWhile_append_of_all _ _ hall]
    decide
  · intro env q hok
    rcases hok with ⟨s, hs⟩
    have hev : (sqlNotebook env q).events =
        [Stage.llmCall, Stage.introspect, Stage.llmCall, Stage.sqlExec, Stage.llmCall] := by
      simp [sqlNotebook, sqlChain, hs]
    rw [hev]
    decide

theorem gen_called_once_after_retrieval_witness :
    gensAfter Stage.sqlExec (sqlNotebook envGoodSql "q").events = 1 :=
  gen_called_once_after_retrieval.2 envGoodSql "q" ⟨"answer", rfl⟩

/-- Counterexample to claim C8: with two search results the extraction of the
first page happens before the fetch of the second, so the pipeline's event
sequence is not ordered stage-by-stage — the fetcher stage has not completed
when the extractor first runs. -/
theorem web_stages_not_strictly_phased :
    ¬ phaseOrdered (webPipeline envTwoUrls "x").events := by
  unfold phaseOrdered
  decide

/-- Claim C8 (amended): the web pipeline's event sequence is exactly: search,
then for each URL a fetch immediately followed by the extraction of that page,
then chunking, embedding, index insertion, top-k retrieval, prompt assembly and
the LLM call, in this order; fetching and extraction alternate per URL rather
than forming two separated phases, and no stage is skipped (fetch/extract occur
once per URL). -/
theorem web_pipeline_event_order (env : WebEnv) (q : String) :
    (webPipeline env q).events =
      Stage.search ::
        ((List.replicate (webPipeline env q).urls.length [Stage.fetch, Stage.extract]).flatten ++
          [Stage.chunk, Stage.embed, Stage.indexAdd, Stage.retrieve, Stage.assemble, Stage.llmCall]) := by
  simp [webPipeline, fetchLoop_events]

/-- Counterexample to claim C1: a generation endpoint that returns the empty
string on the assembled prompt makes the run of the retrieval-augmented
orchestrator finish with the empty string on a non-empty query — an outcome
the claim rules out. -/
theorem orchestrator_empty_answer :
    ("x" : String) ≠ "" ∧ ¬ goodOutcome (webPipeline envEmptyAnswer "x").outcome := by
  constructor
  · decide
  · have h : (webPipeline envEmptyAnswer "x").outcome = RunOutcome.ok "" := rfl
    rw [h]
    rintro (⟨s, hs, hne⟩ | ⟨e, he, _⟩)
    · cases hs
      exact hne rfl
    · cases he

/-- Claim C1 (amended): for every non-empty query, if the generation endpoint
itself only ever returns a non-empty string or raises a service-unavailable
(503) exception, then the orchestrator run — web path and SQL path alike —
returns a non-empty string or raises a service-unavailable exception; the run
adds no outcome of its own beyond what the endpoint produces. -/
theorem orchestrator_outcome :
    (∀ (env : WebEnv) (q : String), q ≠ "" →
      (∀ p, wellBehaved (env.generate p)) → goodOutcome (webPipeline env q).outcome) ∧
    (∀ (env : SqlEnv) (q : String), q ≠ "" →
      (∀ p, wellBehaved (env.invokeLLM p)) → goodOutcome (sqlChain env q).outcome) := by
  constructor
  · intro env q _ hgen
    simp only [webPipeline]
    exact ragCell_wellBehaved _ (hgen _)
  · intro env q _ hgen
    cases hsql : env.invokeLLM (sqlGenPrompt env.schemaInfo q) with
    | ok sqlText =>
      have hout : (sqlChain env q).outcome =
          ragCell (env.invokeLLM (answerPrompt env.schemaInfo q sqlText (env.runSql sqlText))) := by
        simp [sqlChain, hsql]
      rw [hout]
      exact ragCell_wellBehaved _ (hgen _)
    | err e =>
      have h5 := hgen (sqlGenPrompt env.schemaInfo q)
      rw [hsql] at h5
      have hout : (sqlChain env q).outcome = RunOutcome.raised e := by
        simp [sqlChain, hsql]
      rw [hout]
      exact Or.inr ⟨e, rfl, by simpa [wellBehaved] using h5⟩

theorem orchestrator_outcome_witness :
    goodOutcome (webPipeline envGoodWeb "x").outcome ∧
    goodOutcome (sqlChain envGoodSql "x").outcome :=
  ⟨orchestrator_outcome.1 envGoodWeb "x" (by decide)
      (fun p => by simp only [envGoodWeb, wellBehaved]; decide),
   orchestrator_outcome.2 envGoodSql "x" (by decide)
      (fun p => by simp only [envGoodSql, wellBehaved]; decide)⟩

theorem chainOverlapB_iff : ∀ l : List (List Char),
    chainOverlapB l = true ↔
      List.Chain' (fun a b => lastN chunk_overlap a = b.take chunk_overlap) l
  | [] => by simp [chainOverlapB]
  | [a] => by simp [chainOverlapB]
  | a :: b :: t => by
    rw [chainOverlapB, List.chain'_cons, Bool.and_eq_true, decide_eq_true_iff]
    exact and_congr_right (fun _ => chainOverlapB_iff (b :: t))

set_option maxRecDepth 8000 in
/-- Counterexample to claim C3: splitting a 605-character document of six
100-character words separated by single spaces yields two consecutive chunks
("A…E…", 504 characters, and "F…", 100 characters) that share no characters at
all at their boundary — not exactly `chunk_overlap = 32` of them.  The overlap
budget is consumed in whole separator-delimited splits, and a 100-character
split never fits the 32-character budget. -/
theorem chunk_overlap_not_exact :
    ¬ List.Chain' (fun a b => lastN chunk_overlap a = b.take chunk_overlap) (splitText c3doc) := by
  rw [← chainOverlapB_iff]
  decide

/-- Claim C3 (amended): on documents containing no separator characters (no
whitespace), the splitter degenerates to exact sliding windows: for a document
of length `L > O = 32` the number of chunks is exactly
`⌈(L − O) / (C − O)⌉` (close to the claimed `⌈L / (C − O)⌉`), and every pair of
consecutive chunks shares exactly the `O`-character boundary (the last `O`
characters of one chunk are the first `O` of the next).  On documents with
separators the shared boundary can be shorter, down to empty. -/
theorem chunker_windows_on_plain_text (text : List Char)
    (hws : ∀ c ∈ text, isPySpace c = false) (hlen : chunk_overlap < text.length) :
    (splitText text).length =
      (text.length - chunk_overlap + (chunk_size - chunk_overlap) - 1) / (chunk_size - chunk_overlap) ∧
    List.Chain' (fun a b => lastN chunk_overlap a = b.take chunk_overlap) (splitText text) := by
  rw [splitText_eq_windows hws]
  exact ⟨windows_length text hlen, windows_chain text⟩

set_option maxRecDepth 4000 in
theorem chunker_windows_on_plain_text_witness :
    (splitText (List.replicate 33 'a')).length =
      ((List.replicate 33 'a' : List Char).length - chunk_overlap + (chunk_size - chunk_overlap) - 1) /
        (chunk_size - chunk_overlap) ∧
    List.Chain' (fun a b => lastN chunk_overlap a = b.take chunk_overlap)
      (splitText (List.replicate 33 'a')) :=
  chunker_windows_on_plain_text (List.replicate 33 'a') (by decide) (by decide)
